import Mathlib

/-!
Shallow embedding of the core logic of `marcusziade/chatgpt-gtk4`
(`src/internal/app/app.go`).  The Go file concatenates two copies of the
`app` package; definitions suffixed `1` embed the first copy (lines
1-577), those suffixed `2` the second copy (lines 578-1153).

The model concentrates on the parts the claims are about:
  * the chat send handler `onSendMessage` and its stream-consuming
    goroutine, embedded as the list of observable events they emit
    (sink/label updates, database inserts, network opens, status
    messages), in program order;
  * the single-table message store created in `initDB` and read back in
    `loadChatHistory`;
  * the image-generation handler `onGenerateImage` together with a
    model of Go's `base64.StdEncoding.DecodeString`;
  * the atomic save path `copyImageFile` over a small filesystem model.

External nondeterminism (whether a database insert succeeds, the chunks
a stream delivers and its terminal error, the image service outcome) is
passed in as explicit parameters, so every definition is executable.
-/

namespace ChatGtk

/-- Message roles stored in the `messages` table. -/
inductive Role
  | user
  | assistant
deriving DecidableEq, Repr

/-- One streamed chunk: the list of choices, each carrying its delta
text.  The Go loop reads `evt.Choices[0].Delta.Content` and only when
`len(evt.Choices) > 0`. -/
structure Chunk where
  choices : List String
deriving DecidableEq, Repr

/-- A completed stream as observed by the consumer loop: the chunks it
delivered (in arrival order) and the terminal error reported by
`stream.Err()` after `stream.Next()` returns false (`none` = clean
completion). -/
structure ChatStream where
  chunks : List Chunk
  err : Option String
deriving DecidableEq, Repr

/-- The request body handed to the completion service
(`openai.ChatCompletionNewParams`): the role-tagged message history, the
model identifier, and the sampling temperature if one is set.  The Go
code sets no `Temperature` field, which the embedding renders as
`none`. -/
structure ChatRequest where
  messages : List (Role × String)
  model : String
  temperature : Option Rat
deriving DecidableEq, Repr

/-- Request built by the first copy of `onSendMessage`: single user
message, model hardcoded to `openai.ChatModelGPT4oMini` (the string
"gpt-4o-mini"), no temperature.  The model combo box and temperature
scale are never read. -/
def chatRequest1 (text : String) : ChatRequest :=
  ⟨[(Role.user, text)], "gpt-4o-mini", none⟩

/-- Request built by the second copy of `onSendMessage`: single user
message, model hardcoded to `openai.ChatModelGPT4o` (the string
"gpt-4o"), no temperature. -/
def chatRequest2 (text : String) : ChatRequest :=
  ⟨[(Role.user, text)], "gpt-4o", none⟩

/-- Modelled from the spec: the request §4.2/§6 describes for
`send(user_text, model_id, temperature)` — a single-message history
with the just-submitted user text, the caller-supplied model
identifier, and the caller-supplied sampling temperature.  Used only to
compare the spec's request against the one the code builds. -/
def specChatRequest (text modelId : String) (temperature : Rat) : ChatRequest :=
  ⟨[(Role.user, text)], modelId, some temperature⟩

/-- Observable events emitted by the handlers and their background
workers, in program order.  The `marshaled` flag records whether the
source performs the UI mutation inside a `glib.IdleAdd` hand-off to the
UI thread (`true`) or directly (`false`; direct events below are only
ever emitted by the signal handler itself, which already runs on the UI
thread). -/
inductive Ev
  | sink (role : Role) (content : String) (marshaled : Bool)
  | scroll (marshaled : Bool)
  | dbInsert (role : Role) (content : String) (ok : Bool)
  | netOpen (req : ChatRequest)
  | netImg (prompt : String)
  | statusMsg (msg : String) (marshaled : Bool)
  | spinner (running : Bool) (marshaled : Bool)
  | cacheWrite (bytes : List Nat) (ok : Bool)
  | setImage (img : Option (List Nat)) (marshaled : Bool)
  | fileCopy (src dest : String)
deriving DecidableEq, Repr

/-- The delta text a chunk contributes: `Choices[0].Delta.Content` when
the choice list is non-empty, nothing otherwise. -/
def deltaOf (c : Chunk) : String :=
  match c.choices with
  | [] => ""
  | d :: _ => d

/-- Concatenation, in arrival order, of the delta text of every chunk;
chunks with an empty choice list contribute nothing. -/
def deltaConcat : List Chunk → String
  | [] => ""
  | c :: rest => deltaOf c ++ deltaConcat rest

/-- The accumulator loop of the stream consumer: `response := ""` then
`response += evt.Choices[0].Delta.Content` for every chunk with a
non-empty choice list. -/
def accumFrom (acc : String) : List Chunk → String
  | [] => acc
  | c :: rest =>
    match c.choices with
    | [] => accumFrom acc rest
    | d :: _ => accumFrom (acc ++ d) rest

/-- Final accumulated response text of the consumer loop. -/
def accumulate (cs : List Chunk) : String := accumFrom "" cs

/-- UI events the consumer loop emits while streaming: for every chunk
with a non-empty choice list it hands a closure to `glib.IdleAdd` that
shows the accumulated-so-far text and scrolls to the bottom.  (The
first copy rewrites one assistant label with `SetText`; the second
appends a fresh label via `addMessageToUI`; both display the
accumulated text, which is what the event records.) -/
def streamSinkEvents (acc : String) : List Chunk → List Ev
  | [] => []
  | c :: rest =>
    match c.choices with
    | [] => streamSinkEvents acc rest
    | d :: _ =>
      Ev.sink Role.assistant (acc ++ d) true :: Ev.scroll true ::
        streamSinkEvents (acc ++ d) rest

/-- Shared tail of both stream-consuming goroutines after the loop:
check `stream.Err()`; on error publish an API-error status (via
`glib.IdleAdd`) and return; otherwise insert one assistant row with the
accumulated text and, if that insert fails, publish a status. -/
def streamTail (s : ChatStream) (assistantOk : Bool) : List Ev :=
  match s.err with
  | some e => [Ev.statusMsg ("API Error: " ++ e) true]
  | none =>
    Ev.dbInsert Role.assistant (accumulate s.chunks) assistantOk ::
      (if assistantOk then [] else [Ev.statusMsg "Error saving response" true])

/-- Events of the goroutine spawned by the first copy of
`onSendMessage`: open the stream, consume chunks, then the shared
tail. -/
def streamWorker1 (text : String) (s : ChatStream) (assistantOk : Bool) : List Ev :=
  Ev.netOpen (chatRequest1 text) ::
    (streamSinkEvents "" s.chunks ++ streamTail s assistantOk)

/-- Events of the goroutine spawned by the second copy of
`onSendMessage`. -/
def streamWorker2 (text : String) (s : ChatStream) (assistantOk : Bool) : List Ev :=
  Ev.netOpen (chatRequest2 text) ::
    (streamSinkEvents "" s.chunks ++ streamTail s assistantOk)

/-- First copy of `onSendMessage` (app.go lines 316-388).  Empty input
returns immediately.  Otherwise: append the user label to the chat box,
insert the user row; if that insert fails set a status and return
(without spawning the goroutine); otherwise append an empty assistant
label, scroll, and run the stream goroutine.  `userOk` / `assistantOk`
say whether the respective `db.Exec` succeeds. -/
def sendTrace1 (text : String) (userOk : Bool) (s : ChatStream)
    (assistantOk : Bool) : List Ev :=
  if text = "" then []
  else
    Ev.sink Role.user text false :: Ev.dbInsert Role.user text userOk ::
      (if userOk then
        Ev.sink Role.assistant "" false :: Ev.scroll false ::
          streamWorker1 text s assistantOk
      else [Ev.statusMsg "Error saving message" false])

/-- Second copy of `onSendMessage` (app.go lines 890-944).  Uses
`addMessageToUI` (label append plus scroll) for the user message and
spawns its goroutine directly after a successful user insert. -/
def sendTrace2 (text : String) (userOk : Bool) (s : ChatStream)
    (assistantOk : Bool) : List Ev :=
  if text = "" then []
  else
    Ev.sink Role.user text false :: Ev.scroll false ::
      Ev.dbInsert Role.user text userOk ::
        (if userOk then streamWorker2 text s assistantOk
         else [Ev.statusMsg "Error saving message" false])

/-- The sequence of `INSERT INTO messages` statements a trace issues:
role, content, and whether the insert succeeded. -/
def dbEvents (tr : List Ev) : List (Role × String × Bool) :=
  tr.filterMap fun e =>
    match e with
    | Ev.dbInsert r c ok => some (r, c, ok)
    | _ => none

/-- The assistant-row inserts of a trace (content, success flag). -/
def assistantInserts (tr : List Ev) : List (String × Bool) :=
  tr.filterMap fun e =>
    match e with
    | Ev.dbInsert Role.assistant c ok => some (c, ok)
    | _ => none

/-- The user-row inserts of a trace (content, success flag). -/
def userInserts (tr : List Ev) : List (String × Bool) :=
  tr.filterMap fun e =>
    match e with
    | Ev.dbInsert Role.user c ok => some (c, ok)
    | _ => none

/-- Network I/O events (chat stream open or image request). -/
def isNet (e : Ev) : Bool :=
  match e with
  | Ev.netOpen _ => true
  | Ev.netImg _ => true
  | _ => false

/-- Events that append the user's message to the sink or to the store. -/
def isUserEvent (e : Ev) : Bool :=
  match e with
  | Ev.sink Role.user _ _ => true
  | Ev.dbInsert Role.user _ _ => true
  | _ => false

/-- `true` unless the event is a UI mutation performed directly (not
handed to `glib.IdleAdd`). -/
def uiMarshaled (e : Ev) : Bool :=
  match e with
  | Ev.sink _ _ m => m
  | Ev.scroll m => m
  | Ev.statusMsg _ m => m
  | Ev.spinner _ m => m
  | Ev.setImage _ m => m
  | _ => true

/-- Every UI mutation in the trace is marshaled to the UI thread. -/
def allUIMarshaled (tr : List Ev) : Bool := tr.all uiMarshaled

/-! ## Message store

`initDB` creates `messages(id INTEGER PRIMARY KEY, role TEXT, content
TEXT, timestamp DATETIME DEFAULT CURRENT_TIMESTAMP)`.  An insert
supplies only role and content; SQLite assigns the next rowid and the
current clock reading.  SQLite's `CURRENT_TIMESTAMP` has one-second
resolution, so the clock is modelled as an arbitrary monotone sequence
of `Nat` readings — consecutive inserts may share a reading. -/

/-- One row of the `messages` table. -/
structure Row where
  id : Nat
  role : String
  content : String
  timestamp : Nat
deriving DecidableEq, Repr

/-- The `messages` table: its rows in insertion (rowid) order, plus the
next rowid (SQLite rowids start at 1). -/
structure MsgDB where
  rows : List Row
  nextId : Nat
deriving DecidableEq, Repr

def MsgDB.empty : MsgDB := ⟨[], 1⟩

/-- `INSERT INTO messages (role, content) VALUES (?, ?)` executed when
the clock reads `now`. -/
def MsgDB.append (db : MsgDB) (now : Nat) (role content : String) : MsgDB :=
  ⟨db.rows ++ [⟨db.nextId, role, content, now⟩], db.nextId + 1⟩

/-- Run a sequence of appends against a fresh table; each operation is
(clock reading, role, content). -/
def runAppends (ops : List (Nat × String × String)) : MsgDB :=
  ops.foldl (fun db op => db.append op.1 op.2.1 op.2.2) MsgDB.empty

/-- Stable insertion into a timestamp-sorted list: an element inserted
here sits before every later element with an equal timestamp, matching
rowid order for rows the scan visits later. -/
def insertByTs (r : Row) : List Row → List Row
  | [] => [r]
  | x :: xs => if r.timestamp ≤ x.timestamp then r :: x :: xs else x :: insertByTs r xs

/-- `ORDER BY timestamp`, modelled as a stable sort over the rowid-order
scan: rows with equal timestamps are returned in rowid (insertion)
order. -/
def sortByTs : List Row → List Row
  | [] => []
  | x :: xs => insertByTs x (sortByTs xs)

/-- `SELECT role, content FROM messages ORDER BY timestamp`
(`loadChatHistory`). -/
def MsgDB.listAll (db : MsgDB) : List (String × String) :=
  (sortByTs db.rows).map fun r => (r.role, r.content)

/-- The property C4 claims of every append: each row's timestamp is
strictly greater than every earlier row's. -/
def strictlyNewer (db : MsgDB) : Prop :=
  db.rows.Pairwise fun a b => a.timestamp < b.timestamp

/-- Rows produced by a sequence of appends starting at rowid `n`. -/
def rowsFrom (n : Nat) : List (Nat × String × String) → List Row
  | [] => []
  | op :: rest => ⟨n, op.2.1, op.2.2, op.1⟩ :: rowsFrom (n + 1) rest

/-! ## Base64 decoding

Model of Go's `base64.StdEncoding.DecodeString`: newlines are skipped,
input is consumed in groups of four alphabet characters, `=` padding is
allowed only at the end, and an invalid byte at position `i` yields the
error `illegal base64 data at input byte i`. -/

/-- Value of one standard-alphabet base64 character. -/
def b64Val (c : Char) : Option Nat :=
  if 'A' ≤ c ∧ c ≤ 'Z' then some (c.toNat - 65)
  else if 'a' ≤ c ∧ c ≤ 'z' then some (c.toNat - 97 + 26)
  else if '0' ≤ c ∧ c ≤ '9' then some (c.toNat - 48 + 52)
  else if c = '+' then some 62
  else if c = '/' then some 63
  else none

def b64Err (i : Nat) : Except String (List Nat) :=
  Except.error ("illegal base64 data at input byte " ++ toString i)

/-- Decode groups of four characters starting at input position `i`. -/
def b64DecodeAux (i : Nat) : List Char → Except String (List Nat)
  | [] => Except.ok []
  | c0 :: c1 :: c2 :: c3 :: rest =>
    match b64Val c0 with
    | none => b64Err i
    | some v0 =>
      match b64Val c1 with
      | none => b64Err (i + 1)
      | some v1 =>
        if c2 = '=' then
          if c3 = '=' ∧ rest = [] then Except.ok [v0 * 4 + v1 / 16]
          else b64Err (i + 2)
        else
          match b64Val c2 with
          | none => b64Err (i + 2)
          | some v2 =>
            if c3 = '=' then
              if rest = [] then
                Except.ok [v0 * 4 + v1 / 16, (v1 % 16) * 16 + v2 / 4]
              else b64Err (i + 3)
            else
              match b64Val c3 with
              | none => b64Err (i + 3)
              | some v3 =>
                match b64DecodeAux (i + 4) rest with
                | Except.error m => Except.error m
                | Except.ok bs =>
                  Except.ok ([v0 * 4 + v1 / 16, (v1 % 16) * 16 + v2 / 4,
                    (v2 % 4) * 64 + v3] ++ bs)
  | _ => b64Err i

/-- `base64.StdEncoding.DecodeString`. -/
def base64Decode (s : String) : Except String (List Nat) :=
  b64DecodeAux 0 (s.data.filter fun c => c != '\n' && c != '\r')

/-! ## Image generation -/

/-- UI-visible and cached state touched by `onGenerateImage`: the
paintable shown by the picture widget, the contents of the `temp.png`
cache file, the spinner, and the status bar text. -/
structure ImgState where
  displayed : Option (List Nat)
  cache : Option (List Nat)
  spinnerOn : Bool
  statusText : String
deriving DecidableEq, Repr

/-- Apply one event to the image-panel state.  A `cacheWrite` with
`ok = false` models a failed `os.WriteFile`; its on-disk residue is
unspecified, and no theorem below depends on the cache after a failed
write. -/
def applyImg (st : ImgState) (e : Ev) : ImgState :=
  match e with
  | Ev.spinner b _ => { st with spinnerOn := b }
  | Ev.statusMsg m _ => { st with statusText := m }
  | Ev.cacheWrite bs ok => if ok then { st with cache := some bs } else st
  | Ev.setImage img _ => { st with displayed := img }
  | _ => st

/-- Events of the goroutine spawned by `onGenerateImage`: issue the
image request, then inside one `glib.IdleAdd` closure stop the spinner
and run the error ladder — request error, base64 decode of
`result.Data[0].B64JSON`, `os.WriteFile` of the cache, texture
creation, and finally display plus success status.  `res` is the
service outcome (`ok payload` carries the base64 payload), `writeRes`
the `os.WriteFile` outcome, `texRes` the `gdk.NewTextureFromBytes`
outcome. -/
def imageWorkerEvents (prompt : String) (res : Except String String)
    (writeRes texRes : Except String Unit) : List Ev :=
  Ev.netImg prompt :: Ev.spinner false true ::
    match res with
    | Except.error m => [Ev.statusMsg ("Image Generation Error: " ++ m) true]
    | Except.ok payload =>
      match base64Decode payload with
      | Except.error m => [Ev.statusMsg ("Image Decode Error: " ++ m) true]
      | Except.ok bytes =>
        match writeRes with
        | Except.error m =>
          [Ev.cacheWrite bytes false, Ev.statusMsg ("File Error: " ++ m) true]
        | Except.ok _ =>
          Ev.cacheWrite bytes true ::
            match texRes with
            | Except.error m => [Ev.statusMsg ("Error creating texture: " ++ m) true]
            | Except.ok _ =>
              [Ev.setImage (some bytes) true,
                Ev.statusMsg "Image generated successfully" true]

/-- `onGenerateImage` (both copies are identical except for the hardcoded
image model, which the state does not record): empty prompt returns
immediately; otherwise the handler starts the spinner and clears the
displayed image (`SetPaintable(nil)`) before spawning the goroutine. -/
def onGenerateImage (st : ImgState) (prompt : String) (res : Except String String)
    (writeRes texRes : Except String Unit) : ImgState :=
  if prompt = "" then st
  else
    (Ev.spinner true false :: Ev.setImage none false ::
      imageWorkerEvents prompt res writeRes texRes).foldl applyImg st

/-- Events of the goroutine `onSaveImage` spawns for the file copy: run
`copyImageFile` and publish the outcome as a status via
`glib.IdleAdd`. -/
def copyWorkerEvents (src dest : String) (err : Option String) : List Ev :=
  Ev.fileCopy src dest ::
    (match err with
     | some m => [Ev.statusMsg ("Error saving image: " ++ m) true]
     | none => [Ev.statusMsg ("Image saved to: " ++ dest) true])

/-! ## Filesystem model for `copyImageFile`

`copyImageFile` opens the source, creates a fresh temporary file in the
destination's directory, streams the contents into it, and renames it
onto the destination.  The filesystem is a finite map from paths to
byte lists.  The trace below lists every intermediate filesystem state
of a successful run: one state per partially written temporary file
(`io.Copy` interrupted after any prefix), then the state after the
rename. -/

abbrev FileSys := String → Option (List Nat)

/-- Create, overwrite, or (with `none`) remove a path. -/
def fsSet (fs : FileSys) (p : String) (v : Option (List Nat)) : FileSys :=
  fun q => if q = p then v else fs q

/-- Intermediate states while the temporary file fills up: after
`os.CreateTemp` and after each prefix of `data` has been copied
(`io.Copy` interrupted at any point leaves some prefix). -/
def copyPartials (fs : FileSys) (tmp : String) (data : List Nat) : List FileSys :=
  (List.range (data.length + 1)).map fun k => fsSet fs tmp (some (data.take k))

/-- State after `os.Rename(tmpPath, dest)`: the destination holds the
full contents and the temporary path is gone (the deferred
`os.Remove(tmpPath)` then finds nothing to delete). -/
def copyFinal (fs : FileSys) (dest tmp : String) (data : List Nat) : FileSys :=
  fsSet (fsSet (fsSet fs tmp (some data)) dest (some data)) tmp none

/-- Every filesystem state of a successful `copyImageFile` run, in
order. -/
def copyTrace (fs : FileSys) (dest tmp : String) (data : List Nat) : List FileSys :=
  copyPartials fs tmp data ++ [copyFinal fs dest tmp data]

/-- Concrete filesystem holding only the image cache file, used to
instantiate the atomic-copy theorem. -/
def fsCache : FileSys := fun q => if q = "cache.png" then some [7, 8] else none

/-! ## Helper lemmas about the chat traces -/

theorem dbEvents_nil : dbEvents [] = [] := rfl

theorem dbEvents_cons (e : Ev) (l : List Ev) :
    dbEvents (e :: l) =
      (match e with
       | Ev.dbInsert r c ok => [(r, c, ok)]
       | _ => []) ++ dbEvents l := by
  cases e <;> rfl

theorem dbEvents_append (l1 l2 : List Ev) :
    dbEvents (l1 ++ l2) = dbEvents l1 ++ dbEvents l2 := by
  simp [dbEvents, List.filterMap_append]

theorem accumFrom_eq (cs : List Chunk) :
    ∀ acc, accumFrom acc cs = acc ++ deltaConcat cs := by
  induction cs with
  | nil => intro acc; simp [accumFrom, deltaConcat]
  | cons c rest ih =>
    intro acc
    cases h : c.choices with
    | nil => simp [accumFrom, deltaConcat, deltaOf, h, ih]
    | cons d ds => simp [accumFrom, deltaConcat, deltaOf, h, ih, String.append_assoc]

/-- The consumer loop's accumulator equals the arrival-order
concatenation of all chunk deltas. -/
theorem accumulate_eq (cs : List Chunk) : accumulate cs = deltaConcat cs := by
  simpa [accumulate] using accumFrom_eq cs ""

theorem streamSinkEvents_db (cs : List Chunk) :
    ∀ acc, dbEvents (streamSinkEvents acc cs) = [] := by
  induction cs with
  | nil => intro acc; rfl
  | cons c rest ih =>
    intro acc
    cases h : c.choices with
    | nil => simp only [streamSinkEvents, h]; exact ih acc
    | cons d ds =>
      simp only [streamSinkEvents, h, dbEvents_cons]
      simpa using ih (acc ++ d)

theorem dbEvents_tail (s : ChatStream) (aOk : Bool) :
    dbEvents (streamTail s aOk) =
      (match s.err with
       | some _ => []
       | none => [(Role.assistant, deltaConcat s.chunks, aOk)]) := by
  cases he : s.err with
  | none => cases aOk <;> simp [streamTail, he, dbEvents_cons, dbEvents_nil, accumulate_eq]
  | some e => simp [streamTail, he, dbEvents_cons, dbEvents_nil]

theorem dbEvents_worker1 (text : String) (s : ChatStream) (aOk : Bool) :
    dbEvents (streamWorker1 text s aOk) =
      (match s.err with
       | some _ => []
       | none => [(Role.assistant, deltaConcat s.chunks, aOk)]) := by
  rw [streamWorker1, dbEvents_cons, dbEvents_append, streamSinkEvents_db, dbEvents_tail]
  rfl

theorem dbEvents_worker2 (text : String) (s : ChatStream) (aOk : Bool) :
    dbEvents (streamWorker2 text s aOk) =
      (match s.err with
       | some _ => []
       | none => [(Role.assistant, deltaConcat s.chunks, aOk)]) := by
  rw [streamWorker2, dbEvents_cons, dbEvents_append, streamSinkEvents_db, dbEvents_tail]
  rfl

/-- Projection keeping only the assistant rows of a db-insert list. -/
def asstOf : Role × String × Bool → Option (String × Bool)
  | (Role.assistant, c, ok) => some (c, ok)
  | _ => none

theorem assistantInserts_eq_db (tr : List Ev) :
    assistantInserts tr = (dbEvents tr).filterMap asstOf := by
  induction tr with
  | nil => rfl
  | cons e l ih =>
    cases e with
    | dbInsert r c ok =>
      cases r <;> simp [assistantInserts, dbEvents, List.filterMap_cons, asstOf] <;>
        simpa [assistantInserts, dbEvents] using ih
    | _ =>
      first
      | (simp [assistantInserts, dbEvents, List.filterMap_cons]
         simpa [assistantInserts, dbEvents] using ih)

/-- The full insert sequence of the first copy of `onSendMessage`, for
non-empty input: one user row, then — only if the user insert succeeded
and the stream completed cleanly — one assistant row holding the
concatenated deltas. -/
theorem dbEvents_send1 (text : String) (uOk : Bool) (s : ChatStream) (aOk : Bool)
    (ht : text ≠ "") :
    dbEvents (sendTrace1 text uOk s aOk) =
      (Role.user, text, uOk) ::
        (if uOk then
          (match s.err with
           | some _ => []
           | none => [(Role.assistant, deltaConcat s.chunks, aOk)])
         else []) := by
  cases uOk with
  | false => simp [sendTrace1, ht, dbEvents_cons, dbEvents_nil]
  | true => simp [sendTrace1, ht, dbEvents_cons, dbEvents_worker1]

/-- The full insert sequence of the second copy of `onSendMessage`. -/
theorem dbEvents_send2 (text : String) (uOk : Bool) (s : ChatStream) (aOk : Bool)
    (ht : text ≠ "") :
    dbEvents (sendTrace2 text uOk s aOk) =
      (Role.user, text, uOk) ::
        (if uOk then
          (match s.err with
           | some _ => []
           | none => [(Role.assistant, deltaConcat s.chunks, aOk)])
         else []) := by
  cases uOk with
  | false => simp [sendTrace2, ht, dbEvents_cons, dbEvents_nil]
  | true => simp [sendTrace2, ht, dbEvents_cons, dbEvents_worker2]

theorem streamSinkEvents_noUser (cs : List Chunk) (acc : String) :
    ∀ e ∈ streamSinkEvents acc cs, isUserEvent e = false := by
  induction cs generalizing acc with
  | nil => intro e he; cases he
  | cons c rest ih =>
    intro e he
    cases h : c.choices with
    | nil =>
      simp only [streamSinkEvents, h] at he
      exact ih acc e he
    | cons d ds =>
      simp only [streamSinkEvents, h, List.mem_cons] at he
      rcases he with rfl | rfl | he
      · rfl
      · rfl
      · exact ih (acc ++ d) e he

theorem streamTail_noUser (s : ChatStream) (aOk : Bool) :
    ∀ e ∈ streamTail s aOk, isUserEvent e = false := by
  intro e he
  cases herr : s.err with
  | some m =>
    simp only [streamTail, herr, List.mem_singleton] at he
    subst he; rfl
  | none =>
    simp only [streamTail, herr, List.mem_cons] at he
    rcases he with rfl | he
    · rfl
    · cases aOk <;> simp_all [isUserEvent]

theorem streamWorker1_noUser (text : String) (s : ChatStream) (aOk : Bool) :
    ∀ e ∈ streamWorker1 text s aOk, isUserEvent e = false := by
  intro e he
  simp only [streamWorker1, List.mem_cons, List.mem_append] at he
  rcases he with rfl | he | he
  · rfl
  · exact streamSinkEvents_noUser _ _ e he
  · exact streamTail_noUser s aOk e he

theorem streamWorker2_noUser (text : String) (s : ChatStream) (aOk : Bool) :
    ∀ e ∈ streamWorker2 text s aOk, isUserEvent e = false := by
  intro e he
  simp only [streamWorker2, List.mem_cons, List.mem_append] at he
  rcases he with rfl | he | he
  · rfl
  · exact streamSinkEvents_noUser _ _ e he
  · exact streamTail_noUser s aOk e he

theorem streamSinkEvents_marshaled (cs : List Chunk) (acc : String) :
    ∀ e ∈ streamSinkEvents acc cs, uiMarshaled e = true := by
  induction cs generalizing acc with
  | nil => intro e he; cases he
  | cons c rest ih =>
    intro e he
    cases h : c.choices with
    | nil =>
      simp only [streamSinkEvents, h] at he
      exact ih acc e he
    | cons d ds =>
      simp only [streamSinkEvents, h, List.mem_cons] at he
      rcases he with rfl | rfl | he
      · rfl
      · rfl
      · exact ih (acc ++ d) e he

theorem streamTail_marshaled (s : ChatStream) (aOk : Bool) :
    ∀ e ∈ streamTail s aOk, uiMarshaled e = true := by
  intro e he
  cases herr : s.err with
  | some m =>
    simp only [streamTail, herr, List.mem_singleton] at he
    subst he; rfl
  | none =>
    simp only [streamTail, herr, List.mem_cons] at he
    rcases he with rfl | he
    · rfl
    · cases aOk <;> simp_all [uiMarshaled]

/-! ## Claims -/

/-- C1: for every stream that ends without error (and a user insert
that succeeded, so the goroutine runs), both copies of `onSendMessage`
issue exactly one assistant insert, whose content is exactly the
concatenation, in arrival order, of the delta text of every received
chunk; chunks with an empty choice list contribute nothing
(`deltaConcat` prepends `deltaOf`, which is empty for such chunks).
The insert's success flag is the store's answer; when it is `true` the
row is persisted. -/
theorem c1_assistant_row_is_delta_concat (text : String) (s : ChatStream) (aOk : Bool)
    (ht : text ≠ "") (he : s.err = none) :
    assistantInserts (sendTrace1 text true s aOk) = [(deltaConcat s.chunks, aOk)] ∧
    assistantInserts (sendTrace2 text true s aOk) = [(deltaConcat s.chunks, aOk)] := by
  rw [assistantInserts_eq_db, assistantInserts_eq_db, dbEvents_send1 _ _ _ _ ht,
    dbEvents_send2 _ _ _ _ ht]
  simp [he, asstOf, List.filterMap_cons]

/-- Witness for C1: submitting "Hello" with chunks `["Hi"]`, `[]`,
`[" there"]` persists exactly one assistant row "Hi there". -/
theorem c1_assistant_row_is_delta_concat_witness :
    assistantInserts
        (sendTrace1 "Hello" true ⟨[⟨["Hi"]⟩, ⟨[]⟩, ⟨[" there"]⟩], none⟩ true) =
      [("Hi there", true)] ∧
    assistantInserts
        (sendTrace2 "Hello" true ⟨[⟨["Hi"]⟩, ⟨[]⟩, ⟨[" there"]⟩], none⟩ true) =
      [("Hi there", true)] := by
  have h := c1_assistant_row_is_delta_concat "Hello"
    ⟨[⟨["Hi"]⟩, ⟨[]⟩, ⟨[" there"]⟩], none⟩ true (by decide) rfl
  exact ⟨h.1.trans (by decide), h.2.trans (by decide)⟩

/-- C2: for every stream that ends with an error, both copies of
`onSendMessage` insert zero assistant rows and publish the
"API Error" status to the display sink. -/
theorem c2_failed_stream_no_assistant_row (text : String) (s : ChatStream)
    (aOk : Bool) (e : String) (ht : text ≠ "") (he : s.err = some e) :
    assistantInserts (sendTrace1 text true s aOk) = [] ∧
    Ev.statusMsg ("API Error: " ++ e) true ∈ sendTrace1 text true s aOk ∧
    assistantInserts (sendTrace2 text true s aOk) = [] ∧
    Ev.statusMsg ("API Error: " ++ e) true ∈ sendTrace2 text true s aOk := by
  refine ⟨?_, ?_, ?_, ?_⟩
  · rw [assistantInserts_eq_db, dbEvents_send1 _ _ _ _ ht]
    simp [he, asstOf, List.filterMap_cons]
  · simp [sendTrace1, ht, streamWorker1, streamTail, he]
  · rw [assistantInserts_eq_db, dbEvents_send2 _ _ _ _ ht]
    simp [he, asstOf, List.filterMap_cons]
  · simp [sendTrace2, ht, streamWorker2, streamTail, he]

/-- Witness for C2: a stream that delivered one chunk and then failed
with "boom" persists no assistant row and surfaces the API error. -/
theorem c2_failed_stream_no_assistant_row_witness :
    assistantInserts (sendTrace1 "Hello" true ⟨[⟨["Hi"]⟩], some "boom"⟩ true) = [] ∧
    Ev.statusMsg ("API Error: " ++ "boom") true ∈
      sendTrace1 "Hello" true ⟨[⟨["Hi"]⟩], some "boom"⟩ true ∧
    assistantInserts (sendTrace2 "Hello" true ⟨[⟨["Hi"]⟩], some "boom"⟩ true) = [] ∧
    Ev.statusMsg ("API Error: " ++ "boom") true ∈
      sendTrace2 "Hello" true ⟨[⟨["Hi"]⟩], some "boom"⟩ true :=
  c2_failed_stream_no_assistant_row "Hello" ⟨[⟨["Hi"]⟩], some "boom"⟩ true "boom"
    (by decide) rfl

/-- C3: for every non-empty input, both copies of `onSendMessage` start
with exactly one user sink append and one user insert — the first
events of the trace, hence before any network I/O — and emit no
further user events afterwards (so any `netOpen` in the remainder of
the trace follows them, whatever the stream outcome); for empty input
the trace is empty: nothing is persisted and no network call is
issued. -/
theorem c3_user_message_appended_first (text : String) (uOk : Bool) (s : ChatStream)
    (aOk : Bool) (ht : text ≠ "") :
    (sendTrace1 text uOk s aOk).take 2 =
      [Ev.sink Role.user text false, Ev.dbInsert Role.user text uOk] ∧
    ((sendTrace1 text uOk s aOk).drop 2).all (fun e => !isUserEvent e) = true ∧
    (sendTrace2 text uOk s aOk).take 3 =
      [Ev.sink Role.user text false, Ev.scroll false, Ev.dbInsert Role.user text uOk] ∧
    ((sendTrace2 text uOk s aOk).drop 3).all (fun e => !isUserEvent e) = true ∧
    sendTrace1 "" uOk s aOk = [] ∧ sendTrace2 "" uOk s aOk = [] := by
  refine ⟨?_, ?_, ?_, ?_, ?_, ?_⟩
  · cases uOk <;> simp [sendTrace1, ht]
  · cases uOk with
    | false => simp [sendTrace1, ht, isUserEvent]
    | true =>
      have hs : sendTrace1 text true s aOk =
          Ev.sink Role.user text false :: Ev.dbInsert Role.user text true ::
            Ev.sink Role.assistant "" false :: Ev.scroll false ::
              streamWorker1 text s aOk := by
        simp [sendTrace1, ht]
      rw [hs]
      simp only [List.drop_succ_cons, List.drop_zero, List.all_cons]
      rw [List.all_eq_true.mpr (fun e he => by
        simp [streamWorker1_noUser text s aOk e he])]
      rfl
  · cases uOk <;> simp [sendTrace2, ht]
  · cases uOk with
    | false => simp [sendTrace2, ht, isUserEvent]
    | true =>
      have hs : sendTrace2 text true s aOk =
          Ev.sink Role.user text false :: Ev.scroll false ::
            Ev.dbInsert Role.user text true :: streamWorker2 text s aOk := by
        simp [sendTrace2, ht]
      rw [hs]
      simp only [List.drop_succ_cons, List.drop_zero]
      exact List.all_eq_true.mpr (fun e he => by
        simp [streamWorker2_noUser text s aOk e he])
  · simp [sendTrace1]
  · simp [sendTrace2]

/-- Witness for C3 at input "Hello" with a two-chunk stream. -/
theorem c3_user_message_appended_first_witness :
    (sendTrace1 "Hello" true ⟨[⟨["Hi"]⟩, ⟨[" there"]⟩], none⟩ true).take 2 =
      [Ev.sink Role.user "Hello" false, Ev.dbInsert Role.user "Hello" true] ∧
    ((sendTrace1 "Hello" true ⟨[⟨["Hi"]⟩, ⟨[" there"]⟩], none⟩ true).drop 2).all
        (fun e => !isUserEvent e) = true ∧
    (sendTrace2 "Hello" true ⟨[⟨["Hi"]⟩, ⟨[" there"]⟩], none⟩ true).take 3 =
      [Ev.sink Role.user "Hello" false, Ev.scroll false,
        Ev.dbInsert Role.user "Hello" true] ∧
    ((sendTrace2 "Hello" true ⟨[⟨["Hi"]⟩, ⟨[" there"]⟩], none⟩ true).drop 3).all
        (fun e => !isUserEvent e) = true ∧
    sendTrace1 "" true ⟨[⟨["Hi"]⟩, ⟨[" there"]⟩], none⟩ true = [] ∧
    sendTrace2 "" true ⟨[⟨["Hi"]⟩, ⟨[" there"]⟩], none⟩ true = [] :=
  c3_user_message_appended_first "Hello" true ⟨[⟨["Hi"]⟩, ⟨[" there"]⟩], none⟩ true
    (by decide)

/-- C5 counterexample: with a failing user insert, the submission
"Hello" issues no network call at all — the stream request is not
"still issued" as the claim states — and no assistant events occur;
only the error status is surfaced. -/
theorem c5_counterexample :
    ((sendTrace1 "Hello" false ⟨[⟨["Hi"]⟩], none⟩ true).all fun e => !isNet e) = true ∧
    ((sendTrace2 "Hello" false ⟨[⟨["Hi"]⟩], none⟩ true).all fun e => !isNet e) = true ∧
    assistantInserts (sendTrace1 "Hello" false ⟨[⟨["Hi"]⟩], none⟩ true) = [] ∧
    Ev.statusMsg "Error saving message" false ∈
      sendTrace1 "Hello" false ⟨[⟨["Hi"]⟩], none⟩ true := by
  decide

/-- C5 (amended): if the user-message insert fails, both copies of
`onSendMessage` surface the failure as the "Error saving message"
status and then abort the exchange: the trace ends there — no
streaming request is issued, no assistant reply is produced — while
the user's text stays in the display sink. -/
theorem c5_user_insert_failure_aborts (text : String) (s : ChatStream) (aOk : Bool)
    (ht : text ≠ "") :
    sendTrace1 text false s aOk =
      [Ev.sink Role.user text false, Ev.dbInsert Role.user text false,
        Ev.statusMsg "Error saving message" false] ∧
    sendTrace2 text false s aOk =
      [Ev.sink Role.user text false, Ev.scroll false,
        Ev.dbInsert Role.user text false,
        Ev.statusMsg "Error saving message" false] := by
  simp [sendTrace1, sendTrace2, ht]

/-- Witness for the amended C5 at input "Hello". -/
theorem c5_user_insert_failure_aborts_witness :
    sendTrace1 "Hello" false ⟨[⟨["Hi"]⟩], none⟩ true =
      [Ev.sink Role.user "Hello" false, Ev.dbInsert Role.user "Hello" false,
        Ev.statusMsg "Error saving message" false] ∧
    sendTrace2 "Hello" false ⟨[⟨["Hi"]⟩], none⟩ true =
      [Ev.sink Role.user "Hello" false, Ev.scroll false,
        Ev.dbInsert Role.user "Hello" false,
        Ev.statusMsg "Error saving message" false] :=
  c5_user_insert_failure_aborts "Hello" ⟨[⟨["Hi"]⟩], none⟩ true (by decide)

/-- C6: the streaming request both copies build contains the
single-message history with the submitted text, but a hardcoded model
identifier ("gpt-4o-mini" in the first copy, "gpt-4o" in the second)
and no sampling temperature — the request differs from the one the
spec describes for `send(user_text, model_id, temperature)` whenever
the caller's selection matters.  The model combo box and temperature
scale are never read by `onSendMessage`. -/
theorem c6_request_hardcodes_model_and_drops_temperature (text : String) :
    chatRequest1 text = ⟨[(Role.user, text)], "gpt-4o-mini", none⟩ ∧
    chatRequest2 text = ⟨[(Role.user, text)], "gpt-4o", none⟩ ∧
    (chatRequest1 text).temperature = none ∧
    (chatRequest2 text).temperature = none ∧
    chatRequest1 "hi" ≠ specChatRequest "hi" "gpt-4o" (7 / 10) ∧
    chatRequest2 "hi" ≠ specChatRequest "hi" "gpt-4" (7 / 10) :=
  ⟨rfl, rfl, rfl, rfl, by decide, by decide⟩

/-- C10: the two concatenated copies of `onSendMessage` issue the
identical sequence of inserts for the same text, user-insert outcome,
chunk sequence, and terminal outcome; for non-empty text that sequence
is one user row, followed — exactly when the user insert succeeded and
the stream ended without error — by one assistant row holding the
concatenated deltas. -/
theorem c10_two_copies_store_equivalent (text : String) (uOk : Bool) (s : ChatStream)
    (aOk : Bool) :
    dbEvents (sendTrace1 text uOk s aOk) = dbEvents (sendTrace2 text uOk s aOk) ∧
    (text ≠ "" → dbEvents (sendTrace1 text uOk s aOk) =
      (Role.user, text, uOk) ::
        (if uOk then
          (match s.err with
           | some _ => []
           | none => [(Role.assistant, deltaConcat s.chunks, aOk)])
         else [])) := by
  by_cases ht : text = ""
  · subst ht; simp [sendTrace1, sendTrace2, dbEvents_nil]
  · exact ⟨(dbEvents_send1 text uOk s aOk ht).trans (dbEvents_send2 text uOk s aOk ht).symm,
      fun _ => dbEvents_send1 text uOk s aOk ht⟩

/-- Witness for C10 at "Hello" with a clean two-chunk stream. -/
theorem c10_two_copies_store_equivalent_witness :
    dbEvents (sendTrace1 "Hello" true ⟨[⟨["Hi"]⟩, ⟨[" there"]⟩], none⟩ true) =
      dbEvents (sendTrace2 "Hello" true ⟨[⟨["Hi"]⟩, ⟨[" there"]⟩], none⟩ true) ∧
    dbEvents (sendTrace1 "Hello" true ⟨[⟨["Hi"]⟩, ⟨[" there"]⟩], none⟩ true) =
      [(Role.user, "Hello", true), (Role.assistant, "Hi there", true)] := by
  have h := c10_two_copies_store_equivalent "Hello" true
    ⟨[⟨["Hi"]⟩, ⟨[" there"]⟩], none⟩ true
  exact ⟨h.1, (h.2 (by decide)).trans (by decide)⟩

/-! ## Message store ordering (C4) -/

theorem runAppends_from (ops : List (Nat × String × String)) :
    ∀ db : MsgDB, (ops.foldl (fun d op => d.append op.1 op.2.1 op.2.2) db) =
      ⟨db.rows ++ rowsFrom db.nextId ops, db.nextId + ops.length⟩ := by
  induction ops with
  | nil => intro db; simp [rowsFrom]
  | cons op rest ih =>
    intro db
    simp only [List.foldl_cons]
    rw [ih]
    cases db with
    | mk rows nextId =>
      simp [MsgDB.append, rowsFrom, List.append_assoc]
      omega

theorem rowsFrom_timestamps (ops : List (Nat × String × String)) :
    ∀ n, (rowsFrom n ops).map (fun r => r.timestamp) = ops.map (fun op => op.1) := by
  induction ops with
  | nil => intro n; rfl
  | cons op rest ih => intro n; simp [rowsFrom, ih]

theorem rowsFrom_rc (ops : List (Nat × String × String)) :
    ∀ n, (rowsFrom n ops).map (fun r => (r.role, r.content)) =
      ops.map (fun op => (op.2.1, op.2.2)) := by
  induction ops with
  | nil => intro n; rfl
  | cons op rest ih => intro n; simp [rowsFrom, ih]

/-- A timestamp-sorted row list is a fixed point of the stable sort. -/
theorem sortByTs_sorted_eq (l : List Row)
    (h : l.Pairwise fun a b => a.timestamp ≤ b.timestamp) : sortByTs l = l := by
  induction l with
  | nil => rfl
  | cons x xs ih =>
    rw [sortByTs, ih (List.pairwise_cons.mp h).2]
    cases xs with
    | nil => rfl
    | cons y ys =>
      have hxy : x.timestamp ≤ y.timestamp :=
        (List.pairwise_cons.mp h).1 y (by simp)
      simp [insertByTs, hxy]

/-- C4 counterexample: `CURRENT_TIMESTAMP` has one-second resolution,
so two consecutive appends can legitimately receive the same clock
reading (here both at second 5); the second row's timestamp is then
not strictly greater than the first's, refuting the claim as
stated. -/
theorem c4_counterexample_equal_timestamps :
    ¬ strictlyNewer (runAppends [(5, "user", "Hello"), (5, "assistant", "Hi there")]) := by
  unfold strictlyNewer
  decide

/-- C4 (amended): every append stores the clock reading taken at
insertion time, so for a monotone (non-decreasing, not necessarily
strictly increasing) clock the rows carry non-decreasing timestamps,
and `list_all` returns all rows in non-decreasing timestamp order
equal to insertion order, for any interleaving of user and assistant
appends. -/
theorem c4_append_order_and_retrieval (ops : List (Nat × String × String))
    (h : (ops.map fun op => op.1).Pairwise (· ≤ ·)) :
    ((runAppends ops).rows.map fun r => r.timestamp) = ops.map (fun op => op.1) ∧
    (runAppends ops).listAll = ops.map (fun op => (op.2.1, op.2.2)) := by
  have hrows : (runAppends ops).rows = rowsFrom 1 ops := by
    rw [runAppends, runAppends_from ops MsgDB.empty]
    simp [MsgDB.empty]
  have h2 : List.Pairwise (· ≤ ·) ((rowsFrom 1 ops).map fun r => r.timestamp) := by
    rw [rowsFrom_timestamps]; exact h
  have hp := List.pairwise_map.mp h2
  refine ⟨?_, ?_⟩
  · rw [hrows, rowsFrom_timestamps]
  · rw [MsgDB.listAll, hrows, sortByTs_sorted_eq _ hp, rowsFrom_rc]

/-- Witness for the amended C4: an interleaving with a repeated clock
second replays in insertion order. -/
theorem c4_append_order_and_retrieval_witness :
    ((runAppends [(5, "user", "Hello"), (5, "assistant", "Hi there"),
        (6, "user", "Bye")]).rows.map fun r => r.timestamp) = [5, 5, 6] ∧
    (runAppends [(5, "user", "Hello"), (5, "assistant", "Hi there"),
        (6, "user", "Bye")]).listAll =
      [("user", "Hello"), ("assistant", "Hi there"), ("user", "Bye")] := by
  have h := c4_append_order_and_retrieval
    [(5, "user", "Hello"), (5, "assistant", "Hi there"), (6, "user", "Bye")]
    (by decide)
  exact ⟨h.1.trans (by decide), h.2.trans (by decide)⟩

/-! ## Image generation (C7) -/

/-- C7 counterexample: `onGenerateImage` clears the displayed image
(`SetPaintable(nil)`) before spawning its goroutine, so when the
request fails the previously displayed image is not left untouched —
the displayed handle has changed from before the generate call. -/
theorem c7_counterexample_display_cleared :
    (onGenerateImage ⟨some [1, 2, 3], some [1, 2, 3], false, ""⟩ "cat"
        (Except.error "connection reset") (Except.ok ()) (Except.ok ())).displayed ≠
      (ImgState.mk (some [1, 2, 3]) (some [1, 2, 3]) false "").displayed := by
  decide

/-- C7 (amended): for every image generation request with a non-empty
prompt that fails at the request, decode, or file-write stage, a
descriptive error status naming the stage is published, the spinner is
stopped, and the display — cleared at the start of the generate call —
remains cleared rather than keeping or restoring the previous image;
on a request or decode error no cache file is written (the cache keeps
its prior contents). -/
theorem c7_failure_status_and_state (st : ImgState) (prompt m1 p2 m2 p3 m3 : String)
    (bytes : List Nat) (wres tres tres2 tres3 : Except String Unit)
    (hp : prompt ≠ "") (hdec : base64Decode p2 = Except.error m2)
    (hok : base64Decode p3 = Except.ok bytes) :
    onGenerateImage st prompt (Except.error m1) wres tres =
      { st with
          displayed := none
          spinnerOn := false
          statusText := "Image Generation Error: " ++ m1 } ∧
    onGenerateImage st prompt (Except.ok p2) wres tres2 =
      { st with
          displayed := none
          spinnerOn := false
          statusText := "Image Decode Error: " ++ m2 } ∧
    (onGenerateImage st prompt (Except.ok p3) (Except.error m3) tres3).displayed = none ∧
    (onGenerateImage st prompt (Except.ok p3) (Except.error m3) tres3).statusText =
      "File Error: " ++ m3 := by
  refine ⟨?_, ?_, ?_, ?_⟩ <;>
    simp [onGenerateImage, imageWorkerEvents, applyImg, hp, hdec, hok]

/-- Witness for the amended C7: prompt "cat" under a request error, a
decode error (payload "!!!!"), and a file-write error. -/
theorem c7_failure_status_and_state_witness :
    onGenerateImage ⟨some [1, 2, 3], some [9], false, ""⟩ "cat"
        (Except.error "connection reset") (Except.ok ()) (Except.ok ()) =
      ⟨none, some [9], false, "Image Generation Error: connection reset"⟩ ∧
    onGenerateImage ⟨some [1, 2, 3], some [9], false, ""⟩ "cat"
        (Except.ok "!!!!") (Except.ok ()) (Except.ok ()) =
      ⟨none, some [9], false,
        "Image Decode Error: illegal base64 data at input byte 0"⟩ ∧
    (onGenerateImage ⟨some [1, 2, 3], some [9], false, ""⟩ "cat"
        (Except.ok "SGk=") (Except.error "disk full") (Except.ok ())).displayed = none ∧
    (onGenerateImage ⟨some [1, 2, 3], some [9], false, ""⟩ "cat"
        (Except.ok "SGk=") (Except.error "disk full") (Except.ok ())).statusText =
      "File Error: " ++ "disk full" := by
  have h := c7_failure_status_and_state ⟨some [1, 2, 3], some [9], false, ""⟩ "cat"
    "connection reset" "!!!!" "illegal base64 data at input byte 0" "SGk=" "disk full"
    [72, 105] (Except.ok ()) (Except.ok ()) (Except.ok ()) (Except.ok ())
    (by decide) rfl rfl
  exact ⟨h.1, h.2.1, h.2.2.1, h.2.2.2⟩

/-! ## Atomic image save (C8) -/

/-- C8: `copyImageFile` writes the full contents to a sibling
temporary file and only then renames it onto the destination: in every
intermediate state of the run before the rename the destination path
holds exactly what it held before the call (absent or prior contents —
never a partially written file), and in the final state the
destination holds the cache file's contents while the temporary path
is gone. -/
theorem c8_copy_is_atomic (fs : FileSys) (src dest tmp : String) (data : List Nat)
    (hsrc : fs src = some data) (hne : tmp ≠ dest) :
    ((copyTrace fs dest tmp data).dropLast.all fun g => g dest == fs dest) = true ∧
    (copyTrace fs dest tmp data).getLast? = some (copyFinal fs dest tmp data) ∧
    copyFinal fs dest tmp data dest = fs src ∧
    copyFinal fs dest tmp data tmp = none := by
  have hnd : dest ≠ tmp := fun h => hne h.symm
  refine ⟨?_, ?_, ?_, ?_⟩
  · rw [copyTrace, List.dropLast_concat]
    refine List.all_eq_true.mpr ?_
    intro g hg
    simp only [copyPartials, List.mem_map, List.mem_range] at hg
    obtain ⟨k, hk, rfl⟩ := hg
    simp [fsSet, hnd]
  · rw [copyTrace, List.getLast?_concat]
  · rw [hsrc]
    simp [copyFinal, fsSet, hnd]
  · simp [copyFinal, fsSet]

/-- Witness for C8 on a two-byte cache file. -/
theorem c8_copy_is_atomic_witness :
    ((copyTrace fsCache "dest.png" "tmp123.png" [7, 8]).dropLast.all
        fun g => g "dest.png" == fsCache "dest.png") = true ∧
    (copyTrace fsCache "dest.png" "tmp123.png" [7, 8]).getLast? =
      some (copyFinal fsCache "dest.png" "tmp123.png" [7, 8]) ∧
    copyFinal fsCache "dest.png" "tmp123.png" [7, 8] "dest.png" = fsCache "cache.png" ∧
    copyFinal fsCache "dest.png" "tmp123.png" [7, 8] "tmp123.png" = none :=
  c8_copy_is_atomic fsCache "cache.png" "dest.png" "tmp123.png" [7, 8]
    (by decide) (by decide)

/-! ## Cross-thread marshaling (C9) -/

/-- C9: in the three background workers — the stream consumer spawned
by either copy of `onSendMessage`, the image-request goroutine of
`onGenerateImage`, and the file-copy goroutine of `onSaveImage` —
every mutation of UI-visible state (chat labels, scroll position,
image handle, spinner, status text) is marshaled through
`glib.IdleAdd`; no such worker mutates UI state directly, for every
input, chunk sequence, and outcome. -/
theorem c9_worker_ui_mutations_marshaled (text : String) (s : ChatStream) (aOk : Bool)
    (prompt : String) (res : Except String String) (writeRes texRes : Except String Unit)
    (src dest : String) (cerr : Option String) :
    allUIMarshaled (streamWorker1 text s aOk) = true ∧
    allUIMarshaled (streamWorker2 text s aOk) = true ∧
    allUIMarshaled (imageWorkerEvents prompt res writeRes texRes) = true ∧
    allUIMarshaled (copyWorkerEvents src dest cerr) = true := by
  refine ⟨?_, ?_, ?_, ?_⟩
  · rw [allUIMarshaled]
    refine List.all_eq_true.mpr ?_
    intro e he
    simp only [streamWorker1, List.mem_cons, List.mem_append] at he
    rcases he with rfl | he | he
    · rfl
    · exact streamSinkEvents_marshaled _ _ e he
    · exact streamTail_marshaled s aOk e he
  · rw [allUIMarshaled]
    refine List.all_eq_true.mpr ?_
    intro e he
    simp only [streamWorker2, List.mem_cons, List.mem_append] at he
    rcases he with rfl | he | he
    · rfl
    · exact streamSinkEvents_marshaled _ _ e he
    · exact streamTail_marshaled s aOk e he
  · cases res with
    | error m => simp [imageWorkerEvents, allUIMarshaled, uiMarshaled]
    | ok payload =>
      cases hb : base64Decode payload with
      | error m => simp [imageWorkerEvents, hb, allUIMarshaled, uiMarshaled]
      | ok bytes =>
        cases writeRes with
        | error m => simp [imageWorkerEvents, hb, allUIMarshaled, uiMarshaled]
        | ok u =>
          cases texRes <;> simp [imageWorkerEvents, hb, allUIMarshaled, uiMarshaled]
  · cases cerr <;> simp [copyWorkerEvents, allUIMarshaled, uiMarshaled]

end ChatGtk
